import Mathlib

/-!
Shallow embedding of the Arkham Horror 3e companion-app server core
(src/src/companion), covering the card model (util_classes.py), the deck
operations (decks.py), the game-state operations (game_state.py), the
per-player history engine, and the connect handler (message_handler.py).

Lists model Python lists bottom-to-top: the top of a pile is the LAST
element, as in the source (DeckBase docstrings). Python exceptions are
modelled with Except over a small error type; a raised exception carries
the state as mutated so far where the source mutates before raising.
Randomness (secrets.randbelow) is modelled by a function rand : Nat -> Nat;
the value consumed for index i is rand i % (i + 1), so every sequence of
in-range outcomes of the CSPRNG is realised by some rand.
-/

/-- Neighbourhood enum (util_classes.py:106-162). -/
inductive Neighbourhood where
  | downtown | easttown | merchantDistrict | miskatonicUniversity | northside
  | rivertown | southside | uptown | theStreets
  | centralKingsport | innsmouthShore | innsmouthVillage | kingsportHarbor
  | travelRoutes | devilReef | strangeHighHouse
  | frenchHill | theUnderworld | thresholds | theUnnamable | witchHouse
  | fracturedReality | lostSouls | nightmareBreach | temporalFissure
  | visionsOfTheMoon | yuggothEmergent
  deriving DecidableEq, Repr

/-- DeckLabel enum (util_classes.py:165-175). -/
inductive DeckLabel where
  | eventDeck | eventDiscard | headlineL | codexL | archiveL | terrorL
  | rumorL | actionRequired
  deriving DecidableEq, Repr

/-- Label = DeckLabel | Neighbourhood (util_classes.py:178). -/
inductive Label where
  | deck (d : DeckLabel)
  | nb (n : Neighbourhood)
  deriving DecidableEq, Repr

/-- Scenarios enum (util_classes.py:65-87). -/
inductive Scenario where
  | approachOfAzathoth | feastForUmordhoth | veilOfTwilight | echoesOfTheDeep
  | shotsInTheDark | silenceOfTsathoggua
  | dreamsOfRlyeh | thePaleLantern | tyrantsOfRuin | ithaquasChildren
  | theDeadCryOut | theKeyAndTheGate | boundToServe
  deriving DecidableEq, Repr

/-- CardViewState enum (util_classes.py:181-190). -/
inductive CardViewState where
  | faceBack | backFace | eventState | archiveState | unFlippedCodex
  | flippedCodex | rumorState
  deriving DecidableEq, Repr

/-- CardViewState wire values (util_classes.py:184-190). -/
def CardViewState.value : CardViewState → String
  | .faceBack => "face_back"
  | .backFace => "back_face"
  | .eventState => "event"
  | .archiveState => "archive"
  | .unFlippedCodex => "un_flipped_codex"
  | .flippedCodex => "flipped_codex"
  | .rumorState => "rumor"

/-- Card and its subclasses (util_classes.py:193-281), flattened into a sum
type: Card, HeadlineCard, NeighbourhoodCard, CodexCard and
CodexNeighbourhoodCard (the latter has is_item = is_monster = false and
is_event = false, per its constructor at util_classes.py:254-280). -/
inductive Card where
  | plain (face back : String)
  | headlineCard (face back : String) (is_rumor : Bool) (counters : Int)
  | neighbourhoodCard (face back : String) (neighbourhood : Neighbourhood)
      (is_event : Bool)
  | codexCard (face back : String) (number : Int)
      (is_item is_flipped is_monster can_attach is_encounter : Bool)
      (counters : Int)
  | codexNeighbourhoodCard (face back : String) (number : Int)
      (is_flipped can_attach is_encounter : Bool) (counters : Int)
      (neighbourhood : Neighbourhood)
  deriving DecidableEq, Repr

/-- Attribute face, present on every Card. -/
def Card.face : Card → String
  | .plain f _ => f
  | .headlineCard f _ _ _ => f
  | .neighbourhoodCard f _ _ _ => f
  | .codexCard f _ _ _ _ _ _ _ _ => f
  | .codexNeighbourhoodCard f _ _ _ _ _ _ _ => f

/-- Attribute back, present on every Card. -/
def Card.back : Card → String
  | .plain _ b => b
  | .headlineCard _ b _ _ => b
  | .neighbourhoodCard _ b _ _ => b
  | .codexCard _ b _ _ _ _ _ _ _ => b
  | .codexNeighbourhoodCard _ b _ _ _ _ _ _ => b

/-- Attribute number, modelling getattr(self, "number", default): only the
codex variants carry a number field. -/
def Card.number_attr : Card → Option Int
  | .codexCard _ _ n _ _ _ _ _ _ => some n
  | .codexNeighbourhoodCard _ _ n _ _ _ _ _ => some n
  | _ => none

/-- Attribute counters, modelling getattr(self, "counters", default):
HeadlineCard and the codex variants carry a counters field. -/
def Card.counters_attr : Card → Option Int
  | .headlineCard _ _ _ c => some c
  | .codexCard _ _ _ _ _ _ _ _ c => some c
  | .codexNeighbourhoodCard _ _ _ _ _ _ c _ => some c
  | _ => none

/-- Attribute neighbourhood: present on NeighbourhoodCard and
CodexNeighbourhoodCard only. -/
def Card.neighbourhood_attr : Card → Option Neighbourhood
  | .neighbourhoodCard _ _ n _ => some n
  | .codexNeighbourhoodCard _ _ _ _ _ _ _ n => some n
  | _ => none

/-- Attribute is_event: present on NeighbourhoodCard; a
CodexNeighbourhoodCard always has is_event = false (util_classes.py:280). -/
def Card.is_event_attr : Card → Option Bool
  | .neighbourhoodCard _ _ _ e => some e
  | .codexNeighbourhoodCard _ _ _ _ _ _ _ _ => some false
  | _ => none

/-- Python isinstance(card, CodexNeighbourhoodCard). -/
def Card.isCodexNeighbourhood : Card → Bool
  | .codexNeighbourhoodCard _ _ _ _ _ _ _ _ => true
  | _ => false

/-- Assignment card.is_flipped = b (no effect on variants without the
field, which the source never does). -/
def Card.setFlipped : Card → Bool → Card
  | .codexCard f b n it _ im ca ie c, v => .codexCard f b n it v im ca ie c
  | .codexNeighbourhoodCard f b n _ ca ie c nb, v =>
      .codexNeighbourhoodCard f b n v ca ie c nb
  | c, _ => c

/-- Result dict of Card.to_dict (util_classes.py:211-218). -/
structure CardDict where
  face : String
  back : String
  state : String
  identifier : String
  number : Int
  counters : Int
  deriving DecidableEq, Repr

/-- Card.to_dict (util_classes.py:200-218): face and back lowercased,
number via getattr(self, "number", 0), counters via
getattr(self, "counters", -1). -/
def Card.to_dict (c : Card) (state : CardViewState := .faceBack)
    (identifier : String := "") : CardDict :=
  { face := c.face.toLower
    back := c.back.toLower
    state := state.value
    identifier := identifier
    number := (c.number_attr).getD 0
    counters := (c.counters_attr).getD (-1) }

/-- Python exception kinds raised by the embedded code. -/
inductive PyErr where
  | emptyDeck   -- EmptyDeckError (decks.py:54)
  | indexError  -- IndexError from list.pop
  | valueError  -- ValueError
  | keyError    -- KeyError from dict lookup
  | attributeError
  deriving DecidableEq, Repr

/-- Swap deck[i] and deck[j], as the tuple assignment in secure_shuffle
(decks.py:51); indices are always in range there, the guard keeps the
function total. -/
def listSwap {α : Type} (l : List α) (i j : Nat) : List α :=
  if h : i < l.length ∧ j < l.length then
    (l.set i (l.get ⟨j, h.2⟩)).set j (l.get ⟨i, h.1⟩)
  else l

/-- Loop of secure_shuffle (decks.py:49-51): index runs n, n-1, ..., 1;
swap = secrets.randbelow(index + 1) is modelled as rand index % (index+1). -/
def shuffleGo {α : Type} (rand : Nat → Nat) : Nat → List α → List α
  | 0, deck => deck
  | Nat.succ n, deck => shuffleGo rand n (listSwap deck (n + 1) (rand (n + 1) % (n + 2)))

/-- Fisher-Yates secure_shuffle (decks.py:42-51). -/
def secure_shuffle {α : Type} (rand : Nat → Nat) (deck : List α) : List α :=
  shuffleGo rand (deck.length - 1) deck

/-- Python list.pop() on a bottom-to-top list: remove and return the last
element; raises IndexError when empty. -/
def pop_top {α : Type} (l : List α) : Except PyErr (α × List α) :=
  match l.getLast? with
  | none => .error .indexError
  | some c => .ok (c, l.dropLast)

/-- DeckBase.draw (decks.py:74-88): pop() or pop(0), IndexError converted
to EmptyDeckError. -/
def draw {α : Type} (l : List α) (from_top : Bool := true) :
    Except PyErr (α × List α) :=
  if from_top then
    match pop_top l with
    | .error _ => .error .emptyDeck
    | .ok r => .ok r
  else
    match l with
    | [] => .error .emptyDeck
    | c :: rest => .ok (c, rest)

/-- DeckBase.bottom (decks.py:90-97): insert at index 0. -/
def deck_bottom {α : Type} (l : List α) (card : α) : List α := card :: l

/-- DeckBase.top (decks.py:99-106): append. -/
def deck_top {α : Type} (l : List α) (card : α) : List α := l ++ [card]

/-- DeckBase.shuffle_into_top_three (decks.py:108-117):
top_3 = [self.pop(), self.pop(), card]; secure_shuffle(top_3);
self.extend(top_3). Both pops raise IndexError when the list is exhausted;
nothing catches it. -/
def shuffle_into_top_three {α : Type} (rand : Nat → Nat) (l : List α)
    (card : α) : Except PyErr (List α) := do
  let (c1, l1) ← pop_top l
  let (c2, l2) ← pop_top l1
  .ok (l2 ++ secure_shuffle rand [c1, c2, card])

/-- EventDeck.shuffle_discard (decks.py:280-288): shuffle the discard in
place, then self[:] = discard + self. Returns (new deck, shuffled discard);
callers clear the discard themselves. -/
def shuffle_discard (rand : Nat → Nat) (deck discard_pile : List Card) :
    List Card × List Card :=
  let d := secure_shuffle rand discard_pile
  (d ++ deck, d)

/-- NeighbourhoodDeck (decks.py:146-161). -/
structure NeighbourhoodDeck where
  deck : List Card
  card_back : String
  attached_terror : List Card
  attached_codex : Option Card
  clues : Int
  deriving DecidableEq, Repr

/-- Value of the guard `self.attach_codex_card is not None` in
NeighbourhoodDeck.attach_codex_card (decks.py:182): the name resolves to
the bound method itself, which is never None. -/
def attach_codex_card_is_not_none : Bool := true

/-- NeighbourhoodDeck.attach_codex_card (decks.py:172-184). The guard tests
the bound method attach_codex_card against None instead of the field
attached_codex, so the ValueError branch is always taken. -/
def attach_codex_card (d : NeighbourhoodDeck) (card : Card) :
    Except PyErr NeighbourhoodDeck :=
  if attach_codex_card_is_not_none then .error .valueError
  else .ok { d with attached_codex := some card }

/-- NeighbourhoodDeck.add_terror (decks.py:163-170): push on top of
attached_terror. -/
def add_terror (d : NeighbourhoodDeck) (card : Card) : NeighbourhoodDeck :=
  { d with attached_terror := deck_top d.attached_terror card }

/-- Lookup in a Python dict modelled as an insertion-ordered assoc list. -/
def alist_get {κ ν : Type} [DecidableEq κ] (l : List (κ × ν)) (k : κ) :
    Option ν :=
  (l.find? (fun e => e.1 = k)).map Prod.snd

/-- Python dict assignment d[k] = v: update in place when present,
append otherwise. -/
def alist_set {κ ν : Type} [DecidableEq κ] (l : List (κ × ν)) (k : κ)
    (v : ν) : List (κ × ν) :=
  if l.any (fun e => e.1 = k) then
    l.map (fun e => if e.1 = k then (e.1, v) else e)
  else l ++ [(k, v)]

/-- Python del d[k] / d.pop(k). -/
def alist_erase {κ ν : Type} [DecidableEq κ] (l : List (κ × ν)) (k : κ) :
    List (κ × ν) :=
  l.filter (fun e => ¬ e.1 = k)

/-- DEFAULT_TERROR_NEIGHBOURHOOD (mappings.py:40-43). -/
def DEFAULT_TERROR_NEIGHBOURHOOD : Scenario → Option Neighbourhood
  | .tyrantsOfRuin => some .innsmouthShore
  | .ithaquasChildren => some .easttown
  | _ => none

/-- The live pile values of GameState (game_state.py:39-58). The AllHistories
container imported by game_state.py from companion.decks is absent from src;
only the current value under each label matters for the operations below
(decks.add records snapshots and never changes a current value), so the
state holds the current piles directly. ArchiveDeck (decks.py:212-243) is a
dict keyed by codex number; ActionRequired is a dict keyed by ticket. -/
structure GameState where
  scenario : Scenario
  event_deck : List Card
  discard : List Card
  terror : List Card
  has_terror : Bool
  headline : List Card
  rumor : List Card
  codex : List (Int × Card)
  archive : List (Int × Card)
  action_required : List (String × Card)
  nb_decks : List (Neighbourhood × NeighbourhoodDeck)
  later_event_decks : List (Neighbourhood × List Card)
  later_neighbourhoods : List (Neighbourhood × NeighbourhoodDeck)
  neighbourhoods : List Neighbourhood
  deriving DecidableEq, Repr

/-- GameState.__init__ (game_state.py:42-58), taking the factory outputs as
parameters. Line 54 sets has_terror = (len(decks.get(TERROR)) == 0).
Modelled from the spec: the AllHistories class is absent from src; per spec
section 3 a pile absent in the scenario is None, modelled here as the empty
Terror pile, and create_terror_deck (deck_factory.py:38-58) shuffles the
non-empty terror card list for terror scenarios. -/
def GameState.init (scenario : Scenario) (event_deck : List Card)
    (terror : List Card) (headline : List Card)
    (archive : List (Int × Card))
    (nb_decks : List (Neighbourhood × NeighbourhoodDeck))
    (later_event_decks : List (Neighbourhood × List Card))
    (later_neighbourhoods : List (Neighbourhood × NeighbourhoodDeck))
    (neighbourhoods : List Neighbourhood) : GameState :=
  { scenario := scenario
    event_deck := event_deck
    discard := []
    terror := terror
    has_terror := terror.length == 0
    headline := headline
    rumor := []
    codex := []
    archive := archive
    action_required := []
    nb_decks := nb_decks
    later_event_decks := later_event_decks
    later_neighbourhoods := later_neighbourhoods
    neighbourhoods := neighbourhoods }

/-- GameState._draw_from_event_deck (game_state.py:325-341): draw from the
event deck; on EmptyDeckError shuffle the discard under the event deck,
clear the discard, and re-raise. The error carries the mutated state. -/
def _draw_from_event_deck (rand : Nat → Nat) (gs : GameState)
    (from_top : Bool := true) : Except (PyErr × GameState) (Card × GameState) :=
  match draw gs.event_deck from_top with
  | .ok (c, rest) => .ok (c, { gs with event_deck := rest })
  | .error e =>
      let (ed, _) := shuffle_discard rand gs.event_deck gs.discard
      .error (e, { gs with event_deck := ed, discard := [] })

/-- GameState.spread_doom (game_state.py:343-363): draw the bottom of the
event deck, push it on the bottom of the discard. History recording
(decks.add, player_histories.record_change) touches no pile value. -/
def spread_doom (rand : Nat → Nat) (gs : GameState) :
    Except (PyErr × GameState) (Card × GameState) :=
  match _draw_from_event_deck rand gs false with
  | .error r => .error r
  | .ok (c, gs1) => .ok (c, { gs1 with discard := deck_bottom gs1.discard c })

/-- GameState.spread_terror (game_state.py:365-401). Raises ValueError when
has_terror is false, EmptyDeckError when the terror pile is empty; with a
non-empty discard the destination is the neighbourhood of the bottom discard
card and that card is returned, otherwise the destination is
DEFAULT_TERROR_NEIGHBOURHOOD[scenario] and the Neighbourhood is returned. -/
def spread_terror (gs : GameState) :
    Except PyErr ((Card ⊕ Neighbourhood) × GameState) :=
  if !gs.has_terror then .error .valueError
  else if gs.terror.length == 0 then .error .emptyDeck
  else
    match gs.discard with
    | location_card :: _ =>
        match location_card.neighbourhood_attr with
        | none => .error .attributeError
        | some location =>
            match draw gs.terror true with
            | .error e => .error e
            | .ok (tc, trest) =>
                match alist_get gs.nb_decks location with
                | none => .error .keyError
                | some nd =>
                    .ok (.inl location_card,
                      { gs with
                          terror := trest,
                          nb_decks := alist_set gs.nb_decks location (add_terror nd tc) })
    | [] =>
        match DEFAULT_TERROR_NEIGHBOURHOOD gs.scenario with
        | none => .error .keyError
        | some location =>
            match draw gs.terror true with
            | .error e => .error e
            | .ok (tc, trest) =>
                match alist_get gs.nb_decks location with
                | none => .error .keyError
                | some nd =>
                    .ok (.inr location,
                      { gs with
                          terror := trest,
                          nb_decks := alist_set gs.nb_decks location (add_terror nd tc) })

/-- GameState.draw_from_neighbourhood (game_state.py:220-249): draw the top
card of the neighbourhood pile; temp_uuid = str(uuid.uuid4()) is passed in
as a parameter. CodexNeighbourhoodCard: is_flipped = False then
archive.add_card; event card: action_required[temp_uuid] = card; otherwise
the card returns to the bottom of the pile. The pair (card, temp_uuid) is
returned on every path. -/
def draw_from_neighbourhood (gs : GameState) (neighbourhood : Neighbourhood)
    (temp_uuid : String) : Except PyErr ((Card × String) × GameState) :=
  match alist_get gs.nb_decks neighbourhood with
  | none => .error .keyError
  | some nd =>
      match draw nd.deck true with
      | .error e => .error e
      | .ok (card, rest) =>
          let gs1 := { gs with
            nb_decks := alist_set gs.nb_decks neighbourhood { nd with deck := rest } }
          if card.isCodexNeighbourhood then
            let card2 := card.setFlipped false
            match card2.number_attr with
            | none => .error .attributeError
            | some n =>
                .ok ((card2, temp_uuid),
                  { gs1 with archive := alist_set gs1.archive n card2 })
          else
            match card.is_event_attr with
            | none => .error .attributeError
            | some ev =>
                if ev then
                  .ok ((card, temp_uuid),
                    { gs1 with
                      action_required := alist_set gs1.action_required temp_uuid card })
                else
                  .ok ((card, temp_uuid),
                    { gs with
                      nb_decks := alist_set gs.nb_decks neighbourhood
                        { nd with deck := deck_bottom rest card } })

/-- Loop body of the THE_UNDERWORLD case of add_neighbourhood
(game_state.py:686-690): four draws from the top of the event deck, results
discarded, EmptyDeckError counted into doom_to_add. -/
def underworldDraws (rand : Nat → Nat) (gs : GameState) :
    Nat → Int × GameState
  | 0 => (0, gs)
  | Nat.succ n =>
      match _draw_from_event_deck rand gs true with
      | .ok (_, gs1) => underworldDraws rand gs1 n
      | .error (_, gs1) =>
          let (d, gs2) := underworldDraws rand gs1 n
          (d + 1, gs2)

/-- Python negative indexing led[-1] / led[-2]. -/
def pyNegIdx {α : Type} (l : List α) (k : Nat) : Except PyErr α :=
  if h : k ≤ l.length ∧ 0 < k then .ok (l.get ⟨l.length - k, by omega⟩)
  else .error .indexError

/-- GameState.add_neighbourhood (game_state.py:671-714). In both cases the
statement self.event_deck.__add__(...) calls list.__add__, which builds and
returns a NEW list; the result is discarded, so the event deck is not
extended. The general case installs the held-aside pile, and when a later
event-deck entry exists shuffles the discard under the event deck and clears
the discard, returning 0 doom. -/
def add_neighbourhood (rand : Nat → Nat) (gs : GameState)
    (neighbourhood : Neighbourhood) : Except PyErr (Int × GameState) :=
  if neighbourhood = .theUnderworld then
    let gs0 := { gs with neighbourhoods := gs.neighbourhoods ++ [neighbourhood] }
    let (doom_to_add, gs1) := underworldDraws rand gs0 4
    -- self.event_deck.__add__(later[:2]) : the new list is dropped
    let gs2 := { gs1 with event_deck := secure_shuffle rand gs1.event_deck }
    match alist_get gs2.later_event_decks neighbourhood with
    | none => .error .keyError
    | some led => do
        let last1 ← pyNegIdx led 1
        let last2 ← pyNegIdx led 2
        let gs3 := { gs2 with
          discard := deck_bottom (deck_bottom gs2.discard last1) last2 }
        match alist_get gs3.later_neighbourhoods neighbourhood with
        | none => .error .keyError
        | some nd =>
            .ok (doom_to_add, { gs3 with
              nb_decks := alist_set gs3.nb_decks neighbourhood nd
              later_neighbourhoods := alist_erase gs3.later_neighbourhoods neighbourhood
              later_event_decks := alist_erase gs3.later_event_decks neighbourhood })
  else
    match alist_get gs.later_neighbourhoods neighbourhood with
    | none => .error .keyError
    | some nd =>
        let gs1 := { gs with
          nb_decks := alist_set gs.nb_decks neighbourhood nd
          later_neighbourhoods := alist_erase gs.later_neighbourhoods neighbourhood
          neighbourhoods := gs.neighbourhoods ++ [neighbourhood] }
        match alist_get gs1.later_event_decks neighbourhood with
        | none => .ok (0, gs1)
        | some _ =>
            -- self.event_deck.__add__(later_event) : the new list is dropped
            let (ed2, _) := shuffle_discard rand gs1.event_deck gs1.discard
            .ok (0, { gs1 with
              event_deck := ed2
              discard := []
              later_event_decks := alist_erase gs1.later_event_decks neighbourhood })

/-- Player identifier standing for a ServerConnection in the history
bookkeeping (spec section 9 recommends exactly this replacement). -/
abbrev Player : Type := Nat

/-- Modelled from the spec: the per-player log of the PlayerHistories class,
which game_state.py imports from companion.decks but which is absent from
src. Spec section 4.5: an ordered list C[p] of change-sets and an index
j[p] starting at -1 (-1 means nothing to undo). -/
structure PlayerLog where
  changes : List (List Label)
  j : Int
  deriving DecidableEq, Repr

/-- Modelled from the spec: PlayerHistories as the insertion-ordered map
from seated player to PlayerLog (spec section 4.5). -/
abbrev PlayerHistories : Type := List (Player × PlayerLog)

/-- Truncation C[q] := C[q][: j[q] + 1] applied to one log (spec 4.5). -/
def truncLog (lg : PlayerLog) : PlayerLog :=
  { lg with changes := lg.changes.take (lg.j + 1).toNat }

/-- Appending a change-set: C[p] := C[p] ++ [labels]; j[p] := len(C[p]) - 1
(spec 4.5). -/
def pushLog (lg : PlayerLog) (labels : List Label) : PlayerLog :=
  let cs := lg.changes ++ [labels]
  { changes := cs, j := (cs.length : Int) - 1 }

/-- Log of a player, defaulting to the fresh log (C = [], j = -1). -/
def logOf (h : PlayerHistories) (p : Player) : PlayerLog :=
  ((h.find? (fun e => e.1 = p)).map Prod.snd).getD { changes := [], j := -1 }

/-- Current change-set C[p][j[p]] of a log, [] when out of range. -/
def curSet (lg : PlayerLog) : List Label :=
  lg.changes.getD lg.j.toNat []

/-- Modelled from the spec: PlayerHistories.record_change (absent from src;
spec section 4.5). On a mutation by p with touched labels: truncate every
player's forward change-log, then append the change-set to C[p] and point
j[p] at it. A player not yet present is entered with the fresh log. -/
def record_change : PlayerHistories → Player → List Label → PlayerHistories
  | [], p, labels => [(p, pushLog { changes := [], j := -1 } labels)]
  | e :: rest, p, labels =>
      if e.1 = p then
        (e.1, pushLog (truncLog e.2) labels) ::
          rest.map (fun r => (r.1, truncLog r.2))
      else (e.1, truncLog e.2) :: record_change rest p labels

/-- Boolean disjointness of two change-sets (empty intersection). -/
def disjointB (a b : List Label) : Bool :=
  a.all (fun l => b.all (fun m => ¬ m = l))

/-- Modelled from the spec: PlayerHistories.can_undo (absent from src; spec
section 4.5 non-interference rule): j[p] >= 0 and the current change-set of
p is disjoint from the current change-set of every other player q with
j[q] >= 0. -/
def can_undo (h : PlayerHistories) (p : Player) : Bool :=
  (0 ≤ (logOf h p).j) &&
    h.all (fun e =>
      e.1 = p || e.2.j < 0 || disjointB (curSet (logOf h p)) (curSet e.2))

/-- State of the MessageHandler relevant to connect
(message_handler.py:49-55): the name bidict, the colour map and whether
game_states is set; a connection is a Player id. -/
structure HandlerState where
  players : List (Player × String)
  player_colours : List (Player × String)
  game_active : Bool
  deriving DecidableEq, Repr

/-- Property MessageHandler.game (message_handler.py:57-70): raises
ValueError when game_states is None. -/
def gameProp (st : HandlerState) : Except PyErr Unit :=
  if st.game_active then .ok () else .error .valueError

/-- Reply sent back to the sender by connect. -/
inductive ConnectReply where
  | errorReply (msg : String)
  | seatedWithLogs
  deriving DecidableEq, Repr

/-- MessageHandler.connect (message_handler.py:313-348). The guard at line
328 is `if self.game_states is not None`, replying "The game has not been
started yet." exactly when a game IS active; with no active game the later
access to self.game raises ValueError, swallowed by the surrounding
`except ValueError` into the "Bad connection message" reply, before the
sender is seated. -/
def connect (st : HandlerState) (sender : Player)
    (player_name player_colour : String) : ConnectReply × HandlerState :=
  if st.game_active then
    (.errorReply "The game has not been started yet.", st)
  else if st.players.any (fun e => e.2 = player_name) then
    (.errorReply "That name has already been chosen.", st)
  else if st.player_colours.any (fun e => e.2 = player_colour) then
    (.errorReply "That color has already been chosen.", st)
  else
    match gameProp st with
    | .error _ => (.errorReply "Bad connection message", st)
    | .ok _ =>
        (.seatedWithLogs,
          { st with
              players := alist_set st.players sender player_name
              player_colours := alist_set st.player_colours sender player_colour })

/-- Degenerate random source: every randbelow call returns 0. -/
def randZero : Nat → Nat := fun _ => 0

/-- An empty neighbourhood pile with the given card back. -/
def emptyNbDeck (cb : String) : NeighbourhoodDeck :=
  { deck := [], card_back := cb, attached_terror := [], attached_codex := none,
    clues := 0 }

/-- Modelled from the spec: two Feeding Frenzy terror cards standing for
TERROR_CARDS[FEEDING_FRENZY] (companion.cards is absent from src); only the
non-emptiness of the created terror pile matters (deck_factory.py:38-58). -/
def terrorDeckTyrants : List Card :=
  [Card.plain "feeding_frenzy_terror_1_face" "feeding_frenzy_terror_back",
   Card.plain "feeding_frenzy_terror_2_face" "feeding_frenzy_terror_back"]

/-- A fresh Tyrants of Ruin game state: non-empty terror pile, empty event
discard, Innsmouth Shore pile present. -/
def gsTyrants : GameState :=
  GameState.init .tyrantsOfRuin
    [Card.neighbourhoodCard "northside_event_face" "northside_back" .northside true]
    terrorDeckTyrants []
    []
    [(.innsmouthShore, emptyNbDeck "innsmouth_shore_back")]
    [] []
    [.innsmouthShore]

/-- A neighbourhood pile with no attached codex card. -/
def rivertownFresh : NeighbourhoodDeck := emptyNbDeck "rivertown_back"

/-- Codex card 32, attachable to Rivertown (mappings.py:52,62). -/
def codex32 : Card :=
  .codexNeighbourhoodCard "codex_32_face" "codex_32_back" 32 false true false 0
    .rivertown

/-- Event card held aside in later.event_decks for French Hill. -/
def laterCardC5 : Card :=
  .neighbourhoodCard "french_hill_event_face" "french_hill_back" .frenchHill true

/-- A card in the live event deck. -/
def eventCardC5 : Card :=
  .neighbourhoodCard "downtown_event_face" "downtown_back" .downtown true

/-- A card in the event discard. -/
def discardCardC5 : Card :=
  .neighbourhoodCard "uptown_event_face" "uptown_back" .uptown true

/-- The held-aside French Hill neighbourhood pile. -/
def frenchHillDeck : NeighbourhoodDeck :=
  { deck := [Card.neighbourhoodCard "french_hill_1_face" "french_hill_back"
      .frenchHill false]
    card_back := "french_hill_back"
    attached_terror := []
    attached_codex := none
    clues := 0 }

/-- State before add_neighbourhood(FRENCH_HILL): one live event card, one
discard card, one held-aside event card for French Hill. -/
def gsC5 : GameState :=
  { scenario := .theDeadCryOut
    event_deck := [eventCardC5]
    discard := [discardCardC5]
    terror := []
    has_terror := true
    headline := []
    rumor := []
    codex := []
    archive := []
    action_required := []
    nb_decks := []
    later_event_decks := [(.frenchHill, [laterCardC5])]
    later_neighbourhoods := [(.frenchHill, frenchHillDeck)]
    neighbourhoods := [] }

/-- A non-event Downtown card. -/
def downtownCardC6 : Card :=
  .neighbourhoodCard "downtown_1_face" "downtown_back" .downtown false

/-- State with a single non-event card in the Downtown pile. -/
def gsC6 : GameState :=
  { scenario := .feastForUmordhoth
    event_deck := []
    discard := []
    terror := []
    has_terror := true
    headline := []
    rumor := []
    codex := []
    archive := []
    action_required := []
    nb_decks := [(.downtown,
      { deck := [downtownCardC6], card_back := "downtown_back",
        attached_terror := [], attached_codex := none, clues := 0 })]
    later_event_decks := []
    later_neighbourhoods := []
    neighbourhoods := [.downtown] }

/-- An event card in the Rivertown pile. -/
def rivertownEventCard : Card :=
  .neighbourhoodCard "rivertown_event_face" "rivertown_back" .rivertown true

/-- State with a single event card in the Rivertown pile. -/
def gsC6w : GameState :=
  { gsC6 with
      nb_decks := [(.rivertown,
        { deck := [rivertownEventCard], card_back := "rivertown_back",
          attached_terror := [], attached_codex := none, clues := 0 })]
      neighbourhoods := [.rivertown] }

/-- State after drawing the Rivertown event card under ticket u7. -/
def gsC6wAfter : GameState :=
  { gsC6w with
      nb_decks := [(.rivertown,
        { deck := [], card_back := "rivertown_back",
          attached_terror := [], attached_codex := none, clues := 0 })]
      action_required := [("u7", rivertownEventCard)] }

/-- A plain card. -/
def plainCardA : Card := .plain "card_a_face" "card_a_back"

/-- Another plain card. -/
def plainCardB : Card := .plain "card_b_face" "card_b_back"

/-- Two event cards sitting in the discard. -/
def doomCardA : Card :=
  .neighbourhoodCard "easttown_event_face" "easttown_back" .easttown true

/-- Second discard card. -/
def doomCardB : Card :=
  .neighbourhoodCard "southside_event_face" "southside_back" .southside true

/-- State with empty event deck and a two-card discard. -/
def gsC8 : GameState :=
  { scenario := .feastForUmordhoth
    event_deck := []
    discard := [doomCardA, doomCardB]
    terror := []
    has_terror := true
    headline := []
    rumor := []
    codex := []
    archive := []
    action_required := []
    nb_decks := []
    later_event_decks := []
    later_neighbourhoods := []
    neighbourhoods := [] }

/-- Change-set of a draw in Rivertown resolving an event (spec S5). -/
def labelsLp : List Label := [.nb .rivertown, .deck .actionRequired]

/-- Change-set of a spread_doom (spec S5). -/
def labelsLq : List Label := [.deck .eventDeck, .deck .eventDiscard]

/-- Handler state with an active game and one seated player. -/
def stActiveGame : HandlerState :=
  { players := [(0, "PlayerA")], player_colours := [(0, "red")],
    game_active := true }

theorem get_cons_set_perm {α : Type} (t : List α) (k : Nat) (hk : k < t.length)
    (a : α) : List.Perm (t.get ⟨k, hk⟩ :: t.set k a) (a :: t) := by
  induction t generalizing k with
  | nil => cases hk
  | cons b t ih =>
      cases k with
      | zero => exact List.Perm.swap a b t
      | succ m =>
          have hm : m < t.length := Nat.lt_of_succ_lt_succ hk
          show List.Perm (t.get ⟨m, hm⟩ :: b :: t.set m a) (a :: b :: t)
          exact List.Perm.trans (List.Perm.swap b (t.get ⟨m, hm⟩) (t.set m a))
            (List.Perm.trans (List.Perm.cons b (ih m hm)) (List.Perm.swap a b t))

theorem set_set_get_perm {α : Type} (l : List α) (i j : Nat) (hi : i < l.length)
    (hj : j < l.length) :
    List.Perm ((l.set i (l.get ⟨j, hj⟩)).set j (l.get ⟨i, hi⟩)) l := by
  induction l generalizing i j with
  | nil => cases hi
  | cons a t ih =>
      cases i with
      | zero =>
          cases j with
          | zero => exact List.Perm.refl _
          | succ m =>
              have hm : m < t.length := Nat.lt_of_succ_lt_succ hj
              exact get_cons_set_perm t m hm a
      | succ n =>
          have hn : n < t.length := Nat.lt_of_succ_lt_succ hi
          cases j with
          | zero =>
              show List.Perm (t.get ⟨n, hn⟩ :: t.set n a) (a :: t)
              exact get_cons_set_perm t n hn a
          | succ m =>
              have hm : m < t.length := Nat.lt_of_succ_lt_succ hj
              exact List.Perm.cons a (ih n m hn hm)

theorem listSwap_perm {α : Type} (l : List α) (i j : Nat) :
    List.Perm (listSwap l i j) l := by
  unfold listSwap
  split
  · next h => exact set_set_get_perm l i j h.1 h.2
  · exact List.Perm.refl _

theorem shuffleGo_perm {α : Type} (rand : Nat → Nat) (n : Nat) (deck : List α) :
    List.Perm (shuffleGo rand n deck) deck := by
  induction n generalizing deck with
  | zero => exact List.Perm.refl _
  | succ m ih =>
      exact List.Perm.trans (ih _) (listSwap_perm deck (m + 1) (rand (m + 1) % (m + 2)))

theorem secure_shuffle_perm {α : Type} (rand : Nat → Nat) (deck : List α) :
    List.Perm (secure_shuffle rand deck) deck :=
  shuffleGo_perm rand (deck.length - 1) deck

/-- Claim C9: for every deck and every outcome of the random source,
secure_shuffle produces a permutation of its input: length and multiset of
cards are unchanged (no card created, lost, or duplicated). -/
theorem secure_shuffle_preserves_cards (α : Type) [DecidableEq α]
    (rand : Nat → Nat) (deck : List α) :
    List.Perm (secure_shuffle rand deck) deck ∧
    (secure_shuffle rand deck).length = deck.length ∧
    ∀ c : α, (secure_shuffle rand deck).count c = deck.count c := by
  refine ⟨secure_shuffle_perm rand deck, (secure_shuffle_perm rand deck).length_eq, ?_⟩
  intro c
  exact (secure_shuffle_perm rand deck).count_eq c

/-- Claim C2 (code bug): in the fresh Tyrants of Ruin state the Terror pile
exists and is non-empty and the event discard is empty, yet has_terror
(game_state.py:54 computes len(Terror) == 0) is false, so spread_terror
raises ValueError ("This scenario has no Terror deck.") instead of moving a
terror card onto Innsmouth Shore and returning that Neighbourhood. -/
theorem spread_terror_tyrants_raises :
    gsTyrants.terror ≠ [] ∧
    gsTyrants.discard = [] ∧
    DEFAULT_TERROR_NEIGHBOURHOOD gsTyrants.scenario = some .innsmouthShore ∧
    gsTyrants.has_terror = false ∧
    spread_terror gsTyrants = .error .valueError := by
  refine ⟨by decide, rfl, rfl, rfl, rfl⟩

/-- Claim C3 (code bug): with a game active and a fresh name and colour,
connect replies with the error "The game has not been started yet." and
leaves the sender unseated, because the guard at message_handler.py:328
tests `if self.game_states is not None`. -/
theorem connect_active_game_rejects :
    stActiveGame.game_active = true ∧
    (stActiveGame.players.any (fun e => e.2 = "PlayerB")) = false ∧
    (stActiveGame.player_colours.any (fun e => e.2 = "blue")) = false ∧
    connect stActiveGame 1 "PlayerB" "blue" =
      (.errorReply "The game has not been started yet.", stActiveGame) := by
  refine ⟨rfl, by decide, by decide, rfl⟩

/-- Claim C4 (code bug): attach_codex_card fails with ValueError even on a
pile with no attached codex card, because the guard at decks.py:182 tests
the bound method attach_codex_card (never None) instead of attached_codex. -/
theorem attach_codex_fresh_deck_fails :
    rivertownFresh.attached_codex = none ∧
    attach_codex_card rivertownFresh codex32 = .error .valueError := by
  exact ⟨rfl, rfl⟩

/-- Claim C5 (code bug): add_neighbourhood(FRENCH_HILL) on gsC5 returns 0
doom, installs the held-aside pile, clears the discard and shuffles it under
the event deck, but the held-aside event card laterCardC5 is in neither the
event deck nor the discard: the statement event_deck.__add__(...)
(game_state.py:709) discards the list it builds. -/
theorem add_neighbourhood_drops_later_events :
    add_neighbourhood randZero gsC5 .frenchHill =
      .ok (0, { gsC5 with
        event_deck := [discardCardC5, eventCardC5]
        discard := []
        nb_decks := [(.frenchHill, frenchHillDeck)]
        later_neighbourhoods := []
        later_event_decks := []
        neighbourhoods := [.frenchHill] }) ∧
    (laterCardC5, [laterCardC5]) ∈ gsC5.later_event_decks.map
      (fun e => (laterCardC5, e.2)) ∧
    laterCardC5 ∉ [discardCardC5, eventCardC5] ∧
    laterCardC5 ∉ ([] : List Card) := by
  refine ⟨rfl, by decide, by decide, by decide⟩

/-- Claim C6 counterexample: drawing the non-event Downtown card returns
the fresh uuid string "u-123" as the ticket, not the empty string "". -/
theorem draw_ticket_nonempty_counterexample :
    downtownCardC6.isCodexNeighbourhood = false ∧
    downtownCardC6.is_event_attr = some false ∧
    draw_from_neighbourhood gsC6 .downtown "u-123" =
      .ok ((downtownCardC6, "u-123"), gsC6) ∧
    ("u-123" : String) ≠ "" := by
  refine ⟨rfl, rfl, rfl, by decide⟩

/-- Claim C7 (code bug): shuffle_into_top_three raises IndexError on piles
with fewer than two cards, because decks.py:115 pops twice unconditionally. -/
theorem shuffle_into_top_three_small_pile_raises :
    shuffle_into_top_three randZero [plainCardA] plainCardB = .error .indexError ∧
    shuffle_into_top_three randZero ([] : List Card) plainCardB =
      .error .indexError := by
  exact ⟨rfl, rfl⟩

/-- Claim C10: for a Plain card, a Neighbourhood card, and a Headline card
whose counters are not set (counters = -1), to_dict yields number 0 and
counters -1, with face and back the lowercased image identifiers, for every
view state and identifier. -/
theorem to_dict_default_number_counters (f b ident : String)
    (st : CardViewState) (nb : Neighbourhood) (ev r : Bool) :
    ((Card.plain f b).to_dict st ident).number = 0 ∧
    ((Card.plain f b).to_dict st ident).counters = -1 ∧
    ((Card.plain f b).to_dict st ident).face = f.toLower ∧
    ((Card.plain f b).to_dict st ident).back = b.toLower ∧
    ((Card.neighbourhoodCard f b nb ev).to_dict st ident).number = 0 ∧
    ((Card.neighbourhoodCard f b nb ev).to_dict st ident).counters = -1 ∧
    ((Card.neighbourhoodCard f b nb ev).to_dict st ident).face = f.toLower ∧
    ((Card.neighbourhoodCard f b nb ev).to_dict st ident).back = b.toLower ∧
    ((Card.headlineCard f b r (-1)).to_dict st ident).number = 0 ∧
    ((Card.headlineCard f b r (-1)).to_dict st ident).counters = -1 ∧
    ((Card.headlineCard f b r (-1)).to_dict st ident).face = f.toLower ∧
    ((Card.headlineCard f b r (-1)).to_dict st ident).back = b.toLower := by
  exact ⟨rfl, rfl, rfl, rfl, rfl, rfl, rfl, rfl, rfl, rfl, rfl, rfl⟩

theorem spread_doom_of_cons (rand : Nat → Nat) (gs : GameState) (c : Card)
    (rest : List Card) (h : gs.event_deck = c :: rest) :
    spread_doom rand gs =
      .ok (c, { gs with event_deck := rest, discard := c :: gs.discard }) := by
  simp only [spread_doom, _draw_from_event_deck, h, draw, deck_bottom]
  rfl

theorem spread_doom_of_nil (rand : Nat → Nat) (gs : GameState)
    (h : gs.event_deck = []) :
    spread_doom rand gs =
      .error (.emptyDeck,
        { gs with event_deck := secure_shuffle rand gs.discard, discard := [] }) := by
  simp only [spread_doom, _draw_from_event_deck, h, draw, shuffle_discard,
    List.append_nil]
  rfl

/-- Claim C8: spread_doom draws the bottom card of the EventDeck and pushes
it onto the bottom of EventDiscard; on an empty EventDeck it first shuffles
the EventDiscard into the EventDeck and clears the discard, then raises
EmptyDeck with no card moved (the new EventDeck is a permutation of the old
discard), so an immediately following spread_doom on a previously non-empty
discard succeeds. -/
theorem spread_doom_spec (rand rand2 : Nat → Nat) (gs : GameState) :
    (∀ c rest, gs.event_deck = c :: rest →
      spread_doom rand gs =
        .ok (c, { gs with event_deck := rest, discard := c :: gs.discard })) ∧
    (gs.event_deck = [] →
      spread_doom rand gs =
        .error (.emptyDeck,
          { gs with event_deck := secure_shuffle rand gs.discard, discard := [] }) ∧
      List.Perm (secure_shuffle rand gs.discard) gs.discard ∧
      (gs.discard ≠ [] →
        ∃ c gs2,
          spread_doom rand2
            { gs with event_deck := secure_shuffle rand gs.discard, discard := [] } =
            .ok (c, gs2))) := by
  constructor
  · intro c rest h
    exact spread_doom_of_cons rand gs c rest h
  · intro h
    refine ⟨spread_doom_of_nil rand gs h, secure_shuffle_perm rand gs.discard, ?_⟩
    intro hne
    have hlen : (secure_shuffle rand gs.discard).length = gs.discard.length :=
      (secure_shuffle_perm rand gs.discard).length_eq
    cases hd : secure_shuffle rand gs.discard with
    | nil =>
        rw [hd] at hlen
        exact absurd (List.eq_nil_of_length_eq_zero hlen.symm) hne
    | cons c rest =>
        refine ⟨c, _, spread_doom_of_cons rand2 _ c rest ?_⟩
        simp [hd]

/-- Witness for claim C8: on gsC8 (empty event deck, two discard cards) the
empty-deck branch fires, and the immediately following spread_doom succeeds;
on the same state with one event card, the draw-from-bottom branch fires. -/
theorem spread_doom_spec_witness :
    spread_doom randZero { gsC8 with event_deck := [doomCardA] } =
      .ok (doomCardA,
        { gsC8 with event_deck := [], discard := doomCardA :: gsC8.discard }) ∧
    spread_doom randZero gsC8 =
      .error (.emptyDeck,
        { gsC8 with
            event_deck := secure_shuffle randZero gsC8.discard
            discard := [] }) ∧
    (∃ c gs2,
      spread_doom randZero
        { gsC8 with
            event_deck := secure_shuffle randZero gsC8.discard
            discard := [] } = .ok (c, gs2)) := by
  refine ⟨(spread_doom_spec randZero randZero
      { gsC8 with event_deck := [doomCardA] }).1 doomCardA [] rfl, ?_, ?_⟩
  · exact ((spread_doom_spec randZero randZero gsC8).2 rfl).1
  · exact ((spread_doom_spec randZero randZero gsC8).2 rfl).2.2 (by decide)

theorem alist_get_map_update {κ ν : Type} [DecidableEq κ] (l : List (κ × ν))
    (k : κ) (v : ν) (hany : l.any (fun e => e.1 = k) = true) :
    alist_get (l.map (fun e => if e.1 = k then (e.1, v) else e)) k = some v := by
  induction l with
  | nil => simp at hany
  | cons e rest ih =>
      by_cases he : e.1 = k
      · simp [alist_get, he]
      · have hrest : rest.any (fun e => e.1 = k) = true := by
          simp only [List.any_cons, Bool.or_eq_true, decide_eq_true_eq] at hany
          exact hany.resolve_left he
        have hres := ih hrest
        unfold alist_get at hres ⊢
        simpa [he] using hres

theorem alist_get_append_new {κ ν : Type} [DecidableEq κ] (l : List (κ × ν))
    (k : κ) (v : ν) (hany : l.any (fun e => e.1 = k) = false) :
    alist_get (l ++ [(k, v)]) k = some v := by
  induction l with
  | nil => simp [alist_get]
  | cons e rest ih =>
      have hconj := hany
      simp only [List.any_cons, Bool.or_eq_false_iff, decide_eq_false_iff_not]
        at hconj
      have hres := ih hconj.2
      unfold alist_get at hres ⊢
      simpa [hconj.1] using hres

theorem alist_get_set_self {κ ν : Type} [DecidableEq κ] (l : List (κ × ν))
    (k : κ) (v : ν) : alist_get (alist_set l k v) k = some v := by
  unfold alist_set
  split
  · next hany => exact alist_get_map_update l k v hany
  · next hany =>
      exact alist_get_append_new l k v (Bool.eq_false_iff.mpr hany)

/-- Claim C6 (amended): when draw_from_neighbourhood succeeds, the returned
ticket is always the freshly generated uuid string (not "" outside the
event case), and the drawn card is stored in ActionRequired under that
ticket exactly in the event case (is_event true and not a
CodexNeighbourhoodCard). -/
theorem draw_from_neighbourhood_ticket_amended (gs gs2 : GameState)
    (nb : Neighbourhood) (u t : String) (card : Card)
    (hu : alist_get gs.action_required u = none)
    (h : draw_from_neighbourhood gs nb u = .ok ((card, t), gs2)) :
    t = u ∧
    (alist_get gs2.action_required u = some card ↔
      (card.isCodexNeighbourhood = false ∧ card.is_event_attr = some true)) := by
  unfold draw_from_neighbourhood at h
  cases hnd : alist_get gs.nb_decks nb with
  | none => simp only [hnd] at h; exact absurd h (by simp)
  | some nd =>
      simp only [hnd] at h
      cases hdr : draw nd.deck true with
      | error e => simp only [hdr] at h; exact absurd h (by simp)
      | ok cr =>
          obtain ⟨c0, rest⟩ := cr
          simp only [hdr] at h
          cases c0 with
          | plain f b =>
              simp [Card.isCodexNeighbourhood, Card.is_event_attr] at h
          | headlineCard f b r cnt =>
              simp [Card.isCodexNeighbourhood, Card.is_event_attr] at h
          | codexCard f b n it fl im ca ie cnt =>
              simp [Card.isCodexNeighbourhood, Card.is_event_attr] at h
          | codexNeighbourhoodCard f b n fl ca ie cnt nb2 =>
              simp only [Card.isCodexNeighbourhood, Card.setFlipped,
                Card.number_attr, if_true, Except.ok.injEq, Prod.mk.injEq] at h
              obtain ⟨⟨hcard, ht⟩, hgs⟩ := h
              subst hcard
              subst ht
              subst hgs
              refine ⟨rfl, ?_⟩
              simp [hu, Card.isCodexNeighbourhood]
          | neighbourhoodCard f b nb2 ev =>
              simp only [Card.isCodexNeighbourhood, Bool.false_eq_true,
                if_false, Card.is_event_attr] at h
              cases ev with
              | true =>
                  simp only [if_true, Except.ok.injEq, Prod.mk.injEq] at h
                  obtain ⟨⟨hcard, ht⟩, hgs⟩ := h
                  subst hcard
                  subst ht
                  subst hgs
                  refine ⟨rfl, ?_⟩
                  simp [alist_get_set_self, Card.isCodexNeighbourhood,
                    Card.is_event_attr]
              | false =>
                  simp only [if_false, Except.ok.injEq, Prod.mk.injEq,
                    Bool.false_eq_true] at h
                  obtain ⟨⟨hcard, ht⟩, hgs⟩ := h
                  subst hcard
                  subst ht
                  subst hgs
                  refine ⟨rfl, ?_⟩
                  simp [hu, Card.is_event_attr]

/-- Witness for claim C6: drawing the single Rivertown event card under
fresh ticket u7 stores it in ActionRequired under u7 and returns u7. -/
theorem draw_from_neighbourhood_ticket_witness :
    alist_get gsC6w.action_required "u7" = none ∧
    draw_from_neighbourhood gsC6w .rivertown "u7" =
      .ok ((rivertownEventCard, "u7"), gsC6wAfter) ∧
    ("u7" = "u7" ∧
      (alist_get gsC6wAfter.action_required "u7" = some rivertownEventCard ↔
        (rivertownEventCard.isCodexNeighbourhood = false ∧
          rivertownEventCard.is_event_attr = some true))) :=
  ⟨rfl, rfl,
    draw_from_neighbourhood_ticket_amended gsC6w gsC6wAfter .rivertown "u7" "u7"
      rivertownEventCard rfl rfl⟩


theorem getD_append_last {α : Type} (l : List α) (a d : α) :
    (l ++ [a]).getD l.length d = a := by
  induction l with
  | nil => rfl
  | cons b t ih =>
      simp only [List.cons_append, List.length_cons, List.getD_cons_succ]
      exact ih

theorem getD_take_succ {α : Type} (l : List α) (k : Nat) (d : α) :
    (l.take (k + 1)).getD k d = l.getD k d := by
  induction l generalizing k with
  | nil => rfl
  | cons a t ih =>
      cases k with
      | zero => rfl
      | succ m =>
          simp only [List.take_succ_cons, List.getD_cons_succ]
          exact ih m

theorem curSet_push (lg : PlayerLog) (labels : List Label) :
    curSet (pushLog lg labels) = labels := by
  unfold curSet pushLog
  have h1 : (((lg.changes ++ [labels]).length : Int) - 1).toNat =
      lg.changes.length := by
    simp only [List.length_append, List.length_singleton]
    omega
  simp only [h1]
  exact getD_append_last lg.changes labels []

theorem j_push_nonneg (lg : PlayerLog) (labels : List Label) :
    0 ≤ (pushLog lg labels).j := by
  unfold pushLog
  simp only [List.length_append, List.length_singleton]
  omega

theorem j_trunc (lg : PlayerLog) : (truncLog lg).j = lg.j := rfl

theorem curSet_trunc (lg : PlayerLog) (hj : 0 ≤ lg.j) :
    curSet (truncLog lg) = curSet lg := by
  unfold curSet truncLog
  have h1 : (lg.j + 1).toNat = lg.j.toNat + 1 := by omega
  simp only [h1]
  exact getD_take_succ lg.changes lg.j.toNat []

theorem truncLog_fresh :
    truncLog { changes := [], j := -1 } = { changes := [], j := -1 } := rfl

theorem logOf_map_trunc (h : PlayerHistories) (p : Player) :
    logOf (h.map (fun r => (r.1, truncLog r.2))) p = truncLog (logOf h p) := by
  induction h with
  | nil => rfl
  | cons e rest ih =>
      by_cases he : e.1 = p
      · simp [logOf, he]
      · simp only [List.map_cons, logOf] at ih ⊢
        rw [List.find?_cons_of_neg _ (by simp [he]),
          List.find?_cons_of_neg _ (by simp [he])]
        exact ih

theorem logOf_record_self (h : PlayerHistories) (p : Player)
    (labels : List Label) :
    logOf (record_change h p labels) p =
      pushLog (truncLog (logOf h p)) labels := by
  induction h with
  | nil =>
      show logOf [(p, pushLog { changes := [], j := -1 } labels)] p =
        pushLog (truncLog (logOf [] p)) labels
      simp [logOf, truncLog_fresh]
  | cons e rest ih =>
      by_cases he : e.1 = p
      · simp [record_change, if_pos he, logOf, he]
      · simp only [record_change, if_neg he, logOf] at ih ⊢
        rw [List.find?_cons_of_neg _ (by simp [he]),
          List.find?_cons_of_neg _ (by simp [he])]
        exact ih

theorem logOf_record_other (h : PlayerHistories) (p q : Player)
    (labels : List Label) (hpq : p ≠ q) :
    logOf (record_change h q labels) p = truncLog (logOf h p) := by
  induction h with
  | nil =>
      have hqp : ¬ (q = p) := fun hh => hpq hh.symm
      show logOf [(q, pushLog { changes := [], j := -1 } labels)] p =
        truncLog (logOf [] p)
      simp [logOf, hqp, truncLog_fresh]
  | cons e rest ih =>
      by_cases heq : e.1 = q
      · have hep : ¬ (e.1 = p) := by
          rw [heq]
          exact fun hh => hpq hh.symm
        simp only [record_change, if_pos heq, logOf] at ih ⊢
        rw [List.find?_cons_of_neg _ (by simp [hep]),
          List.find?_cons_of_neg _ (by simp [hep])]
        have hm := logOf_map_trunc rest p
        simp only [logOf] at hm
        exact hm
      · by_cases hep : e.1 = p
        · simp [record_change, if_neg heq, logOf, hep, hpq]
        · simp only [record_change, if_neg heq, logOf] at ih ⊢
          rw [List.find?_cons_of_neg _ (by simp [hep]),
            List.find?_cons_of_neg _ (by simp [hep])]
          exact ih

theorem mem_record_change {h : PlayerHistories} {q : Player}
    {labels : List Label} {e2 : Player × PlayerLog}
    (hmem : e2 ∈ record_change h q labels) :
    (e2.1 = q ∧ curSet e2.2 = labels ∧ 0 ≤ e2.2.j) ∨
    (∃ e1 ∈ h, e2 = (e1.1, truncLog e1.2)) := by
  induction h with
  | nil =>
      simp only [record_change, List.mem_singleton] at hmem
      subst hmem
      exact Or.inl ⟨rfl, curSet_push _ _, j_push_nonneg _ _⟩
  | cons e rest ih =>
      by_cases he : e.1 = q
      · simp only [record_change, if_pos he, List.mem_cons,
          List.mem_map] at hmem
        rcases hmem with hhead | ⟨r, hr, hre⟩
        · subst hhead
          exact Or.inl ⟨he, curSet_push _ _, j_push_nonneg _ _⟩
        · exact Or.inr ⟨r, List.mem_cons_of_mem e hr, hre.symm⟩
      · simp only [record_change, if_neg he, List.mem_cons] at hmem
        rcases hmem with hhead | htail
        · exact Or.inr ⟨e, List.mem_cons_self e rest, hhead⟩
        · rcases ih htail with hl | ⟨e1, he1, hee⟩
          · exact Or.inl hl
          · exact Or.inr ⟨e1, List.mem_cons_of_mem e he1, hee⟩

theorem record_change_has_q (h : PlayerHistories) (q : Player)
    (labels : List Label) :
    ∃ e2 ∈ record_change h q labels,
      e2.1 = q ∧ curSet e2.2 = labels ∧ 0 ≤ e2.2.j := by
  induction h with
  | nil =>
      exact ⟨(q, pushLog { changes := [], j := -1 } labels),
        List.mem_singleton_self _, rfl, curSet_push _ _, j_push_nonneg _ _⟩
  | cons e rest ih =>
      by_cases he : e.1 = q
      · exact ⟨(e.1, pushLog (truncLog e.2) labels),
          by simp [record_change, if_pos he], he, curSet_push _ _,
          j_push_nonneg _ _⟩
      · obtain ⟨e2, hmem, hq, hc, hj⟩ := ih
        exact ⟨e2, by simp [record_change, if_neg he, hmem], hq, hc, hj⟩

theorem can_undo_iff (h : PlayerHistories) (p : Player) :
    can_undo h p = true ↔
      (0 ≤ (logOf h p).j ∧
        ∀ e ∈ h, e.1 = p ∨ e.2.j < 0 ∨
          ∀ l ∈ curSet (logOf h p), l ∉ curSet e.2) := by
  unfold can_undo disjointB
  rw [Bool.and_eq_true, List.all_eq_true, decide_eq_true_iff]
  apply and_congr Iff.rfl
  apply forall_congr'
  intro e
  apply imp_congr Iff.rfl
  simp only [Bool.or_eq_true, decide_eq_true_eq, List.all_eq_true]
  rw [or_assoc]
  apply or_congr Iff.rfl
  apply or_congr Iff.rfl
  constructor
  · intro hall l hl hlb
    exact (hall l hl l hlb) rfl
  · intro hall l hl m hm
    intro hml
    subst hml
    exact (hall m hl) hm

/-- Claim C1: for any history state of seated players, can_undo(p) holds iff
j[p] is at least 0 and the current change-set of p is disjoint from the
current change-set of every other player q with j[q] at least 0; in
particular, if p mutates labels Lp and afterwards q mutates labels Lq, then
can_undo(p) is false when Lp intersects Lq, and remains true when Lp and Lq
are disjoint. The PlayerHistories engine is modelled from the spec (absent
from src). -/
theorem can_undo_characterisation (h0 : PlayerHistories) (p q : Player)
    (Lp Lq : List Label) (hpq : p ≠ q) :
    (can_undo h0 p = true ↔
      (0 ≤ (logOf h0 p).j ∧
        ∀ e ∈ h0, e.1 = p ∨ e.2.j < 0 ∨
          ∀ l ∈ curSet (logOf h0 p), l ∉ curSet e.2)) ∧
    ((∃ l, l ∈ Lp ∧ l ∈ Lq) →
      can_undo (record_change (record_change h0 p Lp) q Lq) p = false) ∧
    (can_undo (record_change h0 p Lp) p = true →
      (∀ l ∈ Lp, l ∉ Lq) →
      can_undo (record_change (record_change h0 p Lp) q Lq) p = true) := by
  have hlog1 : logOf (record_change h0 p Lp) p =
      pushLog (truncLog (logOf h0 p)) Lp := logOf_record_self h0 p Lp
  have hj1 : 0 ≤ (logOf (record_change h0 p Lp) p).j := by
    rw [hlog1]
    exact j_push_nonneg _ _
  have hcur1 : curSet (logOf (record_change h0 p Lp) p) = Lp := by
    rw [hlog1]
    exact curSet_push _ _
  have hlog2 : logOf (record_change (record_change h0 p Lp) q Lq) p =
      truncLog (logOf (record_change h0 p Lp) p) :=
    logOf_record_other (record_change h0 p Lp) p q Lq hpq
  have hj2 : 0 ≤ (logOf (record_change (record_change h0 p Lp) q Lq) p).j := by
    rw [hlog2, j_trunc]
    exact hj1
  have hcur2 : curSet (logOf (record_change (record_change h0 p Lp) q Lq) p) =
      Lp := by
    rw [hlog2, curSet_trunc _ hj1, hcur1]
  refine ⟨can_undo_iff h0 p, ?_, ?_⟩
  · rintro ⟨l, hlp, hlq⟩
    obtain ⟨e2, hmem, hq2, hcq2, hjq2⟩ :=
      record_change_has_q (record_change h0 p Lp) q Lq
    cases hb : can_undo (record_change (record_change h0 p Lp) q Lq) p with
    | false => rfl
    | true =>
      exfalso
      obtain ⟨hj, hall⟩ := (can_undo_iff _ p).mp hb
      rcases hall e2 hmem with hq_eq_p | hjneg | hdisj
      · exact hpq (by rw [← hq_eq_p, hq2])
      · exact absurd hjq2 (not_le.mpr hjneg)
      · rw [hcur2, hcq2] at hdisj
        exact (hdisj l hlp) hlq
  · intro hcu1 hdisjLL
    obtain ⟨hj1b, hall1⟩ := (can_undo_iff _ p).mp hcu1
    rw [hcur1] at hall1
    apply (can_undo_iff _ p).mpr
    refine ⟨hj2, ?_⟩
    intro e2 hmem
    rcases mem_record_change hmem with ⟨hq2, hcq2, hjq2⟩ | ⟨e1, he1, hee⟩
    · refine Or.inr (Or.inr ?_)
      rw [hcur2, hcq2]
      exact hdisjLL
    · subst hee
      rcases hall1 e1 he1 with h1p | h1neg | h1disj
      · exact Or.inl h1p
      · refine Or.inr (Or.inl ?_)
        rw [j_trunc]
        exact h1neg
      · by_cases hje : 0 ≤ e1.2.j
        · refine Or.inr (Or.inr ?_)
          rw [hcur2]
          show ∀ l ∈ Lp, l ∉ curSet (truncLog e1.2)
          rw [curSet_trunc e1.2 hje]
          exact h1disj
        · refine Or.inr (Or.inl ?_)
          rw [j_trunc]
          omega

/-- Witness for claim C1: two seated players 0 and 1, with the change-sets
of spec scenario S5 (disjoint), instantiating the characterisation; the
final conjunct evaluates the remains-true case concretely. -/
theorem can_undo_characterisation_witness :
    (0 : Player) ≠ 1 ∧
    ((can_undo ([] : PlayerHistories) 0 = true ↔
      (0 ≤ (logOf ([] : PlayerHistories) 0).j ∧
        ∀ e ∈ ([] : PlayerHistories), e.1 = 0 ∨ e.2.j < 0 ∨
          ∀ l ∈ curSet (logOf ([] : PlayerHistories) 0), l ∉ curSet e.2)) ∧
    ((∃ l, l ∈ labelsLp ∧ l ∈ labelsLq) →
      can_undo (record_change (record_change [] 0 labelsLp) 1 labelsLq) 0 =
        false) ∧
    (can_undo (record_change [] 0 labelsLp) 0 = true →
      (∀ l ∈ labelsLp, l ∉ labelsLq) →
      can_undo (record_change (record_change [] 0 labelsLp) 1 labelsLq) 0 =
        true)) ∧
    can_undo (record_change (record_change [] 0 labelsLp) 1 labelsLq) 0 =
      true :=
  ⟨by decide, can_undo_characterisation [] 0 1 labelsLp labelsLq (by decide),
    (can_undo_characterisation [] 0 1 labelsLp labelsLq (by decide)).2.2
      (by decide) (by decide)⟩
